import Mathlib

/-!
Verification development for the congestion-control core of a QUIC sender.

The Go sources are embedded shallowly:

* `ByteCount` (Go `protocol.ByteCount`, an `int64`) is modelled as `Int` in the
  CUBIC sender and as `Nat` in the Hysteria sender, whose byte quantities are
  provably non-negative.
* Packet numbers (Go `protocol.PacketNumber`, an `int64` with the sentinel
  `InvalidPacketNumber = -1`) are `Int`.
* Monotonic instants and durations are nanosecond counts, `Int` for instants
  (the Hysteria constructor backdates an instant by 100 ms) and `Nat` for the
  RTT readings delivered by the external RTT oracle.
* The float64/float32 arithmetic of the sources (multiplications by the fixed
  constants 0.6, 0.7, 0.75, 0.85, 1.1, 1.25, 1.5 and the fixed-ratio
  comparisons against 0.10/0.15/0.20/0.30) is modelled exactly over the
  rationals, realised as integer multiplication followed by truncating
  division, matching the value the Go code computes for every magnitude the
  stack can reach.
* Go's `int64` division truncates towards zero; it is modelled by `Int.tdiv`.
* The RTT estimator is an external read-only oracle; every operation that
  reads it receives the readings (smoothed, latest, minimum RTT) as arguments.
-/

/-- Go constant `minStartBps = 1024 * 1024 / 8` from hysteria.go: the 1 Mbps/8
protection line for the Hysteria rate. -/
def minStartBps : Nat := 1024 * 1024 / 8

/-- Go constant `rttWindowSize = 10` from hysteria.go. -/
def rttWindowSize : Nat := 10

/-- State of the Hysteria sender, translated field by field from
`hysteriaSender` in hysteria.go.  The `rttStats` pointer is replaced by
passing oracle readings to each operation. -/
structure HysteriaSender where
  targetBps : Nat
  currentBps : Nat
  stableBps : Nat
  maxDatagram : Nat
  nextSendTime : Int
  rttHistory : List Nat
  rttIdx : Nat
  maxRTT : Nat
  rttCount : Int
deriving DecidableEq

/-- Constructor `NewHysteriaSender` from hysteria.go.  `mbps` is the Go `int`
argument; `now` is the value of `monotime.Now()` at construction.  The Go
expression `protocol.ByteCount(mbps) * 1024 * 1024 / 8` is computed on the
defaulted, positive `mbps`, so it is the exact natural `mbps * 1024 * 1024 / 8`;
`float64(targetBps) * 0.6` truncated to an integer is exactly
`targetBps * 3 / 5`. -/
def newHysteriaSender (initialMaxDatagramSize : Nat) (mbps : Int) (now : Int) :
    HysteriaSender :=
  let mbpsN : Nat := (if mbps ≤ 0 then 10 else mbps).toNat
  let targetBps : Nat := mbpsN * 1024 * 1024 / 8
  let initialBps : Nat :=
    if 100 < mbpsN then 100 * 1024 * 1024 / 8 else targetBps * 3 / 5
  let initialBps : Nat := if initialBps < minStartBps then minStartBps else initialBps
  { targetBps := targetBps
    currentBps := initialBps
    stableBps := initialBps
    maxDatagram := initialMaxDatagramSize
    nextSendTime := now - 100 * 1000000
    rttHistory := List.replicate rttWindowSize 0
    rttIdx := 0
    maxRTT := 0
    rttCount := 0 }

/-- Loss gate of `hysteriaSender.OnCongestionEvent`: the comparison
`lossRate > threshold` with `lossRate = lostBytes / (priorInFlight + 1)` and
the RTT-tiered threshold 0.10 / 0.15 / 0.20 / 0.30, carried out exactly over
the rationals.  Durations are in nanoseconds. -/
def hysteriaLossAbove (smoothedRTT lostBytes priorInFlight : Nat) : Bool :=
  if smoothedRTT < 50 * 1000000 then
    decide (priorInFlight + 1 < 10 * lostBytes)
  else if smoothedRTT < 100 * 1000000 then
    decide (3 * (priorInFlight + 1) < 20 * lostBytes)
  else if smoothedRTT < 180 * 1000000 then
    decide (priorInFlight + 1 < 5 * lostBytes)
  else
    decide (3 * (priorInFlight + 1) < 10 * lostBytes)

/-- Method `hysteriaSender.OnCongestionEvent` from hysteria.go.
`float64(stableBps) * 0.75` truncated is exactly `stableBps * 3 / 4`. -/
def HysteriaSender.onCongestionEvent (h : HysteriaSender) (smoothedRTT : Nat)
    (_pn : Int) (lostBytes priorInFlight : Nat) : HysteriaSender :=
  if hysteriaLossAbove smoothedRTT lostBytes priorInFlight then
    { h with currentBps := h.stableBps * 3 / 4, rttCount := -2 }
  else
    { h with stableBps := h.currentBps }

/-- Method `hysteriaSender.updateRTTAndCheckJitter` from hysteria.go.
`float64(currentBps) * 0.85` truncated is exactly `currentBps * 17 / 20`. -/
def HysteriaSender.updateRTTAndCheckJitter (h : HysteriaSender)
    (smoothedRTT latestRTT : Nat) : HysteriaSender :=
  if latestRTT = 0 then h
  else
    let h1 := { h with
      rttHistory := h.rttHistory.set h.rttIdx latestRTT
      rttIdx := (h.rttIdx + 1) % rttWindowSize
      maxRTT := if h.maxRTT < latestRTT then latestRTT else h.maxRTT }
    if 20 * 1000000 < smoothedRTT ∧ 2 * smoothedRTT < latestRTT then
      let c := h1.currentBps * 17 / 20
      { h1 with currentBps := if c < minStartBps then minStartBps else c }
    else h1

/-- Method `hysteriaSender.OnPacketAcked` from hysteria.go: jitter check, then
growth every fourth tick of `rttCount`, with the growth factor 1.25 (smoothed
RTT above 150 ms) or 1.1, clamped to `targetBps`. -/
def HysteriaSender.onPacketAcked (h : HysteriaSender) (smoothedRTT latestRTT : Nat)
    (_pn : Int) (_ackedBytes _priorInFlight : Nat) (_eventTime : Int) :
    HysteriaSender :=
  let h1 := h.updateRTTAndCheckJitter smoothedRTT latestRTT
  let h2 := { h1 with rttCount := h1.rttCount + 1 }
  if 4 ≤ h2.rttCount then
    let h3 := { h2 with rttCount := 0 }
    if h3.currentBps < h3.targetBps then
      let c := if 150 * 1000000 < smoothedRTT then h3.currentBps * 5 / 4
               else h3.currentBps * 11 / 10
      { h3 with currentBps := if h3.targetBps < c then h3.targetBps else c }
    else h3
  else h2

/-- Method `hysteriaSender.OnPacketSent` from hysteria.go.  Division by a zero
`currentBps` would panic in Go; `Int.tdiv` returns 0 there, a state no claim
depends on. -/
def HysteriaSender.onPacketSent (h : HysteriaSender) (latestRTT : Nat) (now : Int)
    (bytes : Nat) : HysteriaSender :=
  let interval : Int := Int.tdiv ((bytes : Int) * 1000000000) (h.currentBps : Int)
  let nst : Int := if h.nextSendTime < now then now + interval
                   else h.nextSendTime + interval
  let limitTime : Int := max (20 * 1000000) ((latestRTT : Int) / 2)
  if now + limitTime < nst then { h with nextSendTime := now + limitTime }
  else { h with nextSendTime := nst }

/-- Method `hysteriaSender.OnRetransmissionTimeout` from hysteria.go. -/
def HysteriaSender.onRetransmissionTimeout (h : HysteriaSender) (_b : Bool) :
    HysteriaSender :=
  { h with currentBps := minStartBps }

/-- Method `hysteriaSender.SetMaxDatagramSize` from hysteria.go. -/
def HysteriaSender.setMaxDatagramSize (h : HysteriaSender) (s : Nat) :
    HysteriaSender :=
  { h with maxDatagram := s }

/-- Method `hysteriaSender.GetCongestionWindow` from hysteria.go: rate times
smoothed RTT times the tiered multiplier (1.5 / 1.3 / 1.1, modelled as
15/10, 13/10, 11/10), floored at `32 * maxDatagram`; 1 MiB when the
oracle has no RTT sample yet. -/
def HysteriaSender.getCongestionWindow (h : HysteriaSender) (smoothedRTT : Nat) :
    Nat :=
  if smoothedRTT = 0 then 1024 * 1024
  else
    let multNum : Nat :=
      if 180 * 1000000 ≤ smoothedRTT then 11
      else if 100 * 1000000 ≤ smoothedRTT then 13
      else 15
    let cwnd := h.currentBps * smoothedRTT * multNum / (10 * 1000000000)
    if cwnd < 32 * h.maxDatagram then 32 * h.maxDatagram else cwnd

/-- One call of the Hysteria controller interface, with the oracle readings the
call observes.  This enumerates every state-mutating entry point of
`hysteriaSender` (`MaybeExitSlowStart`, `InSlowStart`, `InRecovery`,
`CanSend`, `TimeUntilSend`, `HasPacingBudget` and `GetCongestionWindow` do not
write any field). -/
inductive HysteriaOp where
  | sent (latestRTT : Nat) (now : Int) (bytes : Nat)
  | acked (smoothedRTT latestRTT : Nat) (pn : Int) (ackedBytes priorInFlight : Nat)
      (eventTime : Int)
  | loss (smoothedRTT : Nat) (pn : Int) (lostBytes priorInFlight : Nat)
  | rto (retransmitted : Bool)
  | setSize (s : Nat)

/-- Dispatch of one interface call on the Hysteria state. -/
def hysteriaStep (h : HysteriaSender) : HysteriaOp → HysteriaSender
  | .sent latestRTT now bytes => h.onPacketSent latestRTT now bytes
  | .acked sm lt pn ab pif t => h.onPacketAcked sm lt pn ab pif t
  | .loss sm pn lost pif => h.onCongestionEvent sm pn lost pif
  | .rto b => h.onRetransmissionTimeout b
  | .setSize s => h.setMaxDatagramSize s

/-- A Hysteria sender after construction followed by an arbitrary sequence of
interface calls. -/
def hysteriaRun (initialMaxDatagramSize : Nat) (mbps : Int) (now : Int)
    (ops : List HysteriaOp) : HysteriaSender :=
  ops.foldl hysteriaStep (newHysteriaSender initialMaxDatagramSize mbps now)


/-- Modelled from the spec: `protocol.InitialPacketSize` of the surrounding
QUIC stack (its Go file is not under src/); the spec's CUBIC slow-start
scenario fixes the initial max datagram size at 1200 bytes. -/
def initialPacketSize : Int := 1200

/-- Modelled from the spec: `protocol.MaxCongestionWindowPackets` of the
surrounding QUIC stack (not under src/), the packet count bounding the CUBIC
window in the invariant "window ≤ max-datagram · MaxCongestionWindowPackets";
10000 packets in the stack. -/
def maxCongestionWindowPackets : Int := 10000

/-- Modelled from the spec: `protocol.MaxByteCount`, the largest byte count
(an int64), used as the initial slow-start threshold. -/
def protocolMaxByteCount : Int := 2 ^ 63 - 1

/-- Modelled from the spec: `protocol.InvalidPacketNumber`, the distinguished
`Invalid` packet-number sentinel of the stack (-1). -/
def invalidPacketNumber : Int := -1

/-- Modelled from the spec: `protocol.TimerGranularity` (1 ms in nanoseconds),
the fallback divisor for the bandwidth estimate when the oracle has no
smoothed RTT yet. -/
def timerGranularity : Int := 1000000

/-- Go constant `maxBurstPackets = 3` from cubic_sender.go. -/
def maxBurstPackets : Int := 3

/-- Go constant `minCongestionWindowPackets = 2` from cubic_sender.go. -/
def minCongestionWindowPackets : Int := 2

/-- Go constant `minBandwidthLimit = 5 * 1024 * 1024` (5 Mbps) from
cubic_sender.go. -/
def minBandwidthLimit : Int := 5 * 1024 * 1024

/-- Go constant `cubeScale = 40` from cubic.go. -/
def cubeScale : Nat := 40

/-- Go constant `cubeCongestionWindowScale = 410` from cubic.go. -/
def cubeCongestionWindowScale : Int := 410

/-- Go constant `maxDatagramSize = protocol.ByteCount(protocol.InitialPacketSize)`
from cubic.go (the curve's fixed datagram size). -/
def cubicMaxDatagramSize : Int := initialPacketSize

/-- Go constant `cubeFactor = 1 << cubeScale / cubeCongestionWindowScale /
maxDatagramSize` from cubic.go (successive truncating divisions). -/
def cubeFactor : Int := 2 ^ cubeScale / cubeCongestionWindowScale / cubicMaxDatagramSize

/-- Readings of the external RTT oracle (`utils.RTTStats`) at one call:
smoothed, latest and minimum RTT in nanoseconds, zero meaning "no sample
yet". -/
structure RTTOracle where
  smoothedRTT : Nat
  latestRTT : Nat
  minRTT : Nat
deriving DecidableEq

/-- Connection-level counters (`utils.ConnectionStats`), owned by the
surrounding connection and read by the CUBIC sender on loss; the uint64
atomics are modelled as naturals. -/
structure ConnectionStats where
  bytesSent : Nat
  bytesLost : Nat
  packetsLost : Nat
deriving DecidableEq

/-- Modelled from the spec: the hybrid slow-start state (its Go file is not
under src/).  Per spec section 4.4 it tracks whether a round is in progress,
the packet number ending the round, the minimum RTT observed in the round,
and a count of RTT samples. -/
structure HybridSlowStart where
  roundInProgress : Bool
  roundEnd : Int
  roundMinRTT : Nat
  sampleCount : Nat
deriving DecidableEq

/-- Modelled from the spec: `HybridSlowStart.Restart` zeroes the round
state. -/
def HybridSlowStart.restart (_h : HybridSlowStart) : HybridSlowStart :=
  { roundInProgress := false, roundEnd := 0, roundMinRTT := 0, sampleCount := 0 }

/-- Modelled from the spec: on a sent packet, if no round is in progress,
start one ending at the packet just sent (the current largest-sent). -/
def HybridSlowStart.onPacketSent (h : HybridSlowStart) (pn : Int) : HybridSlowStart :=
  if h.roundInProgress then h else { h with roundInProgress := true, roundEnd := pn }

/-- Modelled from the spec: on an acked packet, close the round when the ack
reaches the round's end. -/
def HybridSlowStart.onPacketAcked (h : HybridSlowStart) (pn : Int) : HybridSlowStart :=
  if h.roundInProgress ∧ h.roundEnd ≤ pn then { h with roundInProgress := false } else h

/-- Modelled from the spec: the adaptive exit delta of hybrid slow-start, a
function of the connection minimum RTT bounded to a small absolute range (an
eighth of the minimum, clamped between 4 ms and 16 ms). -/
def hybridSlowStartDelta (minRTT : Nat) : Nat :=
  min (max (minRTT / 8) (4 * 1000000)) (16 * 1000000)

/-- Modelled from the spec: `ShouldExitSlowStart(latest, min, windowPackets)`
samples the latest RTT into the round state and fires once enough samples
have been taken, the window is past a small low threshold, and the round
minimum RTT exceeds the connection minimum by more than the adaptive
delta. -/
def HybridSlowStart.shouldExitSlowStart (h : HybridSlowStart)
    (latestRTT minRTT : Nat) (windowPackets : Int) : Bool × HybridSlowStart :=
  let h1 := { h with
    sampleCount := h.sampleCount + 1
    roundMinRTT := if h.sampleCount = 0 then latestRTT else min h.roundMinRTT latestRTT }
  (decide (16 ≤ windowPackets ∧ 8 ≤ h1.sampleCount ∧
      minRTT + hybridSlowStartDelta minRTT < h1.roundMinRTT), h1)

/-- Modelled from the spec: the pacer state (its Go file is not under src/).
Per spec section 4.6 it is a leaky bucket of sendable bytes with a last-update
instant and the current max datagram size; the bandwidth source is a callable
owned by the enclosing sender and is therefore passed in by the caller. -/
structure Pacer where
  budget : Int
  lastSentTime : Int
  maxDatagramSize : Int
deriving DecidableEq

/-- Modelled from the spec: a fresh pacer starts with a full burst budget. -/
def newPacer (initialMaxDatagramSize : Int) : Pacer :=
  { budget := maxBurstPackets * initialMaxDatagramSize
    lastSentTime := 0
    maxDatagramSize := initialMaxDatagramSize }

/-- Modelled from the spec: `pacer.SentPacket` refills the bucket at the
bandwidth rate (bytes per second over elapsed nanoseconds), caps it at
`maxBurstPackets` datagrams, and debits the sent bytes. -/
def Pacer.sentPacket (p : Pacer) (bandwidth : Int) (now : Int) (bytes : Int) : Pacer :=
  let refill := Int.tdiv (bandwidth * (now - p.lastSentTime)) 1000000000
  let b := min (p.budget + refill) (maxBurstPackets * p.maxDatagramSize)
  { p with budget := b - bytes, lastSentTime := now }

/-- Modelled from the spec: the pacer adopts the new max datagram size
forwarded by `SetMaxDatagramSize`. -/
def Pacer.setMaxDatagramSize (p : Pacer) (s : Int) : Pacer :=
  { p with maxDatagramSize := s }

/-- CUBIC curve state, translated field by field from `Cubic` in cubic.go;
the stored clock is unused by the translated methods and `numConnections` is
fixed at the default 1 (`SetNumConnections` is never called by the sender). -/
structure CubicCurve where
  epoch : Int
  lastMaxCongestionWindow : Int
  ackedBytesCount : Int
  estimatedTCPcongestionWindow : Int
  originPointCongestionWindow : Int
  timeToOriginPoint : Nat
  lastTargetCongestionWindow : Int
deriving DecidableEq

/-- Method `Cubic.Reset` from cubic.go. -/
def CubicCurve.reset (_c : CubicCurve) : CubicCurve :=
  { epoch := 0, lastMaxCongestionWindow := 0, ackedBytesCount := 0
    estimatedTCPcongestionWindow := 0, originPointCongestionWindow := 0
    timeToOriginPoint := 0, lastTargetCongestionWindow := 0 }

/-- Constructor `NewCubic` from cubic.go (it immediately calls `Reset`). -/
def newCubic : CubicCurve :=
  CubicCurve.reset ⟨0, 0, 0, 0, 0, 0, 0⟩

/-- Method `Cubic.OnApplicationLimited` from cubic.go. -/
def CubicCurve.onApplicationLimited (c : CubicCurve) : CubicCurve :=
  { c with epoch := 0 }

/-- Method `Cubic.CongestionWindowAfterPacketLoss` from cubic.go.  With the
default single connection, `beta() = 0.7` and `betaLastMax() = 0.85`; the
float32 products truncated to integers are modelled as `· * 7 / 10` and
`· * 17 / 20` (truncation towards zero, as Go's int64 conversion). -/
def CubicCurve.congestionWindowAfterPacketLoss (c : CubicCurve)
    (currentCongestionWindow : Int) : CubicCurve × Int :=
  let lastMax :=
    if currentCongestionWindow + cubicMaxDatagramSize < c.lastMaxCongestionWindow then
      Int.tdiv (currentCongestionWindow * 17) 20
    else currentCongestionWindow
  ({ c with lastMaxCongestionWindow := lastMax, epoch := 0 },
    Int.tdiv (currentCongestionWindow * 7) 10)

/-- Floor cube root on naturals, by bounded bisection.  It models
`uint32(math.Cbrt(float64(n)))` in `Cubic.CongestionWindowAfterAck`, which is
the floor of the real cube root for every magnitude the stack can reach. -/
def natCbrtAux (n : Nat) : Nat → Nat → Nat → Nat
  | 0, lo, _ => lo
  | fuel + 1, lo, hi =>
    if hi ≤ lo + 1 then lo
    else
      let mid := (lo + hi) / 2
      if mid * mid * mid ≤ n then natCbrtAux n fuel mid hi
      else natCbrtAux n fuel lo mid

/-- Floor cube root entry point (64 bisection steps cover every int64). -/
def natCbrt (n : Nat) : Nat := natCbrtAux n 64 0 (n + 2)

/-- Method `Cubic.CongestionWindowAfterAck` from cubic.go.  Instants are
nanosecond counts; Go's truncating int64 divisions are `Int.tdiv`; the
arithmetic right shift `>> cubeScale` acts on a non-negative quantity and is
division by `2 ^ cubeScale`; the float32 Reno-equivalent growth
`ackedBytes * alpha * maxDatagramSize / estimatedTCP` with
`alpha = 3 · (1 − 0.7) / (1 + 0.7) = 9/17` is modelled exactly as
`ackedBytes * 9 * maxDatagramSize / (17 * estimatedTCP)`. -/
def CubicCurve.congestionWindowAfterAck (c : CubicCurve)
    (ackedBytes currentCongestionWindow delayMin eventTime : Int) : CubicCurve × Int :=
  let c := { c with ackedBytesCount := c.ackedBytesCount + ackedBytes }
  let c :=
    if c.epoch = 0 then
      let c := { c with
        epoch := eventTime
        ackedBytesCount := ackedBytes
        estimatedTCPcongestionWindow := currentCongestionWindow }
      if c.lastMaxCongestionWindow ≤ currentCongestionWindow then
        { c with timeToOriginPoint := 0
                 originPointCongestionWindow := currentCongestionWindow }
      else
        { c with
          timeToOriginPoint :=
            natCbrt (cubeFactor * (c.lastMaxCongestionWindow -
              currentCongestionWindow)).toNat
          originPointCongestionWindow := c.lastMaxCongestionWindow }
    else c
  let elapsedTime : Int :=
    Int.tdiv (Int.tdiv (eventTime + delayMin - c.epoch) 1000 * 1024) (1000 * 1000)
  let offset : Int := |(c.timeToOriginPoint : Int) - elapsedTime|
  let deltaCongestionWindow : Int :=
    cubeCongestionWindowScale * offset * offset * offset * cubicMaxDatagramSize /
      2 ^ cubeScale
  let targetCongestionWindow : Int :=
    if (c.timeToOriginPoint : Int) < elapsedTime then
      c.originPointCongestionWindow + deltaCongestionWindow
    else
      c.originPointCongestionWindow - deltaCongestionWindow
  let targetCongestionWindow :=
    min targetCongestionWindow (currentCongestionWindow + Int.tdiv c.ackedBytesCount 2)
  let c := { c with
    estimatedTCPcongestionWindow := c.estimatedTCPcongestionWindow +
      Int.tdiv (c.ackedBytesCount * 9 * cubicMaxDatagramSize)
        (17 * c.estimatedTCPcongestionWindow)
    ackedBytesCount := 0
    lastTargetCongestionWindow := targetCongestionWindow }
  if targetCongestionWindow < c.estimatedTCPcongestionWindow then
    (c, c.estimatedTCPcongestionWindow)
  else (c, targetCongestionWindow)

/-- Congestion state tags reported to the observability sink. -/
inductive CongestionState where
  | slowStart
  | congestionAvoidance
  | recovery
  | applicationLimited
deriving DecidableEq

/-- State of the CUBIC sender, translated field by field from `cubicSender`
in cubic_sender.go.  The `rttStats` pointer is replaced by oracle readings
passed to each operation; the `connStats` pointer is carried as the current
counter values; the qlog recorder is a presence flag, the last reported state,
and the list of recorded state events (newest first). -/
structure CubicSender where
  hybridSlowStart : HybridSlowStart
  connStats : ConnectionStats
  cubic : CubicCurve
  pacer : Pacer
  reno : Bool
  largestSentPacketNumber : Int
  largestAckedPacketNumber : Int
  largestSentAtLastCutback : Int
  lastCutbackExitedSlowstart : Bool
  congestionWindow : Int
  slowStartThreshold : Int
  numAckedPackets : Nat
  initialCongestionWindow : Int
  initialMaxCongestionWindow : Int
  maxDatagramSize : Int
  lastState : CongestionState
  hasQlogger : Bool
  qlogEvents : List CongestionState
deriving DecidableEq

/-- Constructor `newCubicSender` from cubic_sender.go.  `lastState` is the Go
zero value (the slow-start tag) when no recorder is attached. -/
def newCubicSenderFull (stats : ConnectionStats) (reno : Bool)
    (initialMaxDatagramSize initialCongestionWindow initialMaxCongestionWindow : Int)
    (hasQlogger : Bool) : CubicSender :=
  { hybridSlowStart := ⟨false, 0, 0, 0⟩
    connStats := stats
    cubic := newCubic
    pacer := newPacer initialMaxDatagramSize
    reno := reno
    largestSentPacketNumber := invalidPacketNumber
    largestAckedPacketNumber := invalidPacketNumber
    largestSentAtLastCutback := invalidPacketNumber
    lastCutbackExitedSlowstart := false
    congestionWindow := initialCongestionWindow
    slowStartThreshold := protocolMaxByteCount
    numAckedPackets := 0
    initialCongestionWindow := initialCongestionWindow
    initialMaxCongestionWindow := initialMaxCongestionWindow
    maxDatagramSize := initialMaxDatagramSize
    lastState := CongestionState.slowStart
    hasQlogger := hasQlogger
    qlogEvents := if hasQlogger then [CongestionState.slowStart] else [] }

/-- Constructor `NewCubicSender` from cubic_sender.go: initial window of 32
datagrams, maximum window of `MaxCongestionWindowPackets` datagrams. -/
def newCubicSender (stats : ConnectionStats) (reno : Bool)
    (initialMaxDatagramSize : Int) (hasQlogger : Bool) : CubicSender :=
  newCubicSenderFull stats reno initialMaxDatagramSize
    (32 * initialMaxDatagramSize)
    (maxCongestionWindowPackets * initialMaxDatagramSize) hasQlogger

/-- Method `cubicSender.maxCongestionWindow` from cubic_sender.go. -/
def CubicSender.maxCongestionWindow (c : CubicSender) : Int :=
  c.maxDatagramSize * maxCongestionWindowPackets

/-- Method `cubicSender.minCongestionWindow` from cubic_sender.go. -/
def CubicSender.minCongestionWindow (c : CubicSender) : Int :=
  c.maxDatagramSize * minCongestionWindowPackets

/-- Method `cubicSender.GetCongestionWindow` from cubic_sender.go. -/
def CubicSender.getCongestionWindow (c : CubicSender) : Int :=
  c.congestionWindow

/-- Method `cubicSender.InRecovery` from cubic_sender.go. -/
def CubicSender.inRecovery (c : CubicSender) : Prop :=
  c.largestAckedPacketNumber ≠ invalidPacketNumber ∧
    c.largestAckedPacketNumber ≤ c.largestSentAtLastCutback

instance (c : CubicSender) : Decidable c.inRecovery := by
  unfold CubicSender.inRecovery
  infer_instance

/-- Method `cubicSender.InSlowStart` from cubic_sender.go. -/
def CubicSender.inSlowStart (c : CubicSender) : Prop :=
  c.getCongestionWindow < c.slowStartThreshold

instance (c : CubicSender) : Decidable c.inSlowStart := by
  unfold CubicSender.inSlowStart
  infer_instance

/-- Method `cubicSender.maybeQlogStateChange` from cubic_sender.go. -/
def CubicSender.maybeQlogStateChange (c : CubicSender) (s : CongestionState) :
    CubicSender :=
  if ¬ c.hasQlogger ∨ s = c.lastState then c
  else { c with qlogEvents := s :: c.qlogEvents, lastState := s }

/-- Modelled from the spec: `BandwidthEstimate` — bandwidth is "window / rtt"
in bytes per second (spec section 3) with the `TimerGranularity` fallback when
the oracle has no smoothed RTT (spec section 7); `BandwidthFromDelta` is not
under src/. -/
def CubicSender.bandwidthEstimate (c : CubicSender) (o : RTTOracle) : Int :=
  let srtt : Int := if o.smoothedRTT = 0 then timerGranularity else (o.smoothedRTT : Int)
  Int.tdiv (c.getCongestionWindow * 1000000000) srtt

/-- Method `cubicSender.OnPacketSent` from cubic_sender.go (the ignored
`bytesInFlight` argument is dropped). -/
def CubicSender.onPacketSent (c : CubicSender) (o : RTTOracle) (sentTime : Int)
    (packetNumber bytes : Int) (isRetransmittable : Bool) : CubicSender :=
  let c := { c with pacer := c.pacer.sentPacket (c.bandwidthEstimate o) sentTime bytes }
  if ¬ isRetransmittable then c
  else
    let c := { c with largestSentPacketNumber := packetNumber }
    { c with hybridSlowStart := c.hybridSlowStart.onPacketSent packetNumber }

/-- Method `cubicSender.isCwndLimited` from cubic_sender.go. -/
def CubicSender.isCwndLimited (c : CubicSender) (bytesInFlight : Int) : Prop :=
  c.getCongestionWindow ≤ bytesInFlight ∨
    ((c.inSlowStart ∧ Int.tdiv c.getCongestionWindow 2 < bytesInFlight) ∨
      c.getCongestionWindow - bytesInFlight ≤ maxBurstPackets * c.maxDatagramSize)

instance (c : CubicSender) (b : Int) : Decidable (c.isCwndLimited b) := by
  unfold CubicSender.isCwndLimited
  infer_instance

/-- Method `cubicSender.maybeIncreaseCwnd` from cubic_sender.go.  The Go
comparison `numAckedPackets >= uint64(congestionWindow/maxDatagramSize)` is
taken on the non-negative quotient the stack reaches (`Int.toNat`). -/
def CubicSender.maybeIncreaseCwnd (c : CubicSender) (o : RTTOracle)
    (ackedBytes priorInFlight eventTime : Int) : CubicSender :=
  if ¬ c.isCwndLimited priorInFlight then
    let c := { c with cubic := c.cubic.onApplicationLimited }
    c.maybeQlogStateChange .applicationLimited
  else if c.maxCongestionWindow ≤ c.congestionWindow then c
  else if c.inSlowStart then
    let c := { c with congestionWindow := c.congestionWindow + c.maxDatagramSize }
    c.maybeQlogStateChange .slowStart
  else
    let c := c.maybeQlogStateChange .congestionAvoidance
    if c.reno then
      let c := { c with numAckedPackets := c.numAckedPackets + 1 }
      if (Int.tdiv c.congestionWindow c.maxDatagramSize).toNat ≤ c.numAckedPackets then
        { c with congestionWindow := c.congestionWindow + c.maxDatagramSize
                 numAckedPackets := 0 }
      else c
    else
      let r := c.cubic.congestionWindowAfterAck ackedBytes c.congestionWindow
        (o.minRTT : Int) eventTime
      { c with cubic := r.1, congestionWindow := min c.maxCongestionWindow r.2 }

/-- Method `cubicSender.OnPacketAcked` from cubic_sender.go. -/
def CubicSender.onPacketAcked (c : CubicSender) (o : RTTOracle)
    (ackedPacketNumber ackedBytes priorInFlight eventTime : Int) : CubicSender :=
  let c := { c with
    largestAckedPacketNumber := max ackedPacketNumber c.largestAckedPacketNumber }
  if c.inRecovery then c
  else
    let c := c.maybeIncreaseCwnd o ackedBytes priorInFlight eventTime
    if c.inSlowStart then
      { c with hybridSlowStart := c.hybridSlowStart.onPacketAcked ackedPacketNumber }
    else c

/-- BDP floor of `cubicSender.applyMinRateProtection`: the Go float expression
`float64(minBandwidthLimit) * srtt.Seconds() / 8` truncated to an integer is
the exact rational `minBandwidthLimit * srttNanos / 8000000000` floored, with
the 100 ms fallback for a zero smoothed RTT. -/
def minRateCwnd (smoothedRTT : Nat) : Int :=
  let srtt : Nat := if smoothedRTT = 0 then 100 * 1000000 else smoothedRTT
  minBandwidthLimit * (srtt : Int) / 8000000000

/-- Method `cubicSender.applyMinRateProtection` from cubic_sender.go. -/
def CubicSender.applyMinRateProtection (c : CubicSender) (o : RTTOracle) :
    CubicSender :=
  let minCwnd := minRateCwnd o.smoothedRTT
  let minCwnd := if minCwnd < c.minCongestionWindow then c.minCongestionWindow
                 else minCwnd
  if c.congestionWindow < minCwnd then { c with congestionWindow := minCwnd } else c

/-- Method `cubicSender.OnCongestionEvent` from cubic_sender.go: account the
loss in the connection counters, suppress duplicate cutbacks, apply the 10 %
cumulative loss tolerance (the float comparison
`float64(totalLost) / float64(totalSent) < 0.10` is the exact rational
comparison `10 * totalLost < totalSent`), then cut back and protect. -/
def CubicSender.onCongestionEvent (c : CubicSender) (o : RTTOracle)
    (packetNumber lostBytes _priorInFlight : Int) : CubicSender :=
  let c := { c with connStats := { c.connStats with
    packetsLost := c.connStats.packetsLost + 1
    bytesLost := c.connStats.bytesLost + lostBytes.toNat } }
  if packetNumber ≤ c.largestSentAtLastCutback then c
  else if 0 < c.connStats.bytesSent ∧
      10 * c.connStats.bytesLost < c.connStats.bytesSent then c
  else
    let c := { c with lastCutbackExitedSlowstart := decide c.inSlowStart }
    let c := c.maybeQlogStateChange .recovery
    let c :=
      if c.reno then
        { c with congestionWindow := Int.tdiv (c.congestionWindow * 7) 10 }
      else
        let r := c.cubic.congestionWindowAfterPacketLoss c.congestionWindow
        { c with cubic := r.1, congestionWindow := r.2 }
    let c := c.applyMinRateProtection o
    { c with slowStartThreshold := c.congestionWindow
             largestSentAtLastCutback := c.largestSentPacketNumber
             numAckedPackets := 0 }

/-- Method `cubicSender.OnRetransmissionTimeout` from cubic_sender.go. -/
def CubicSender.onRetransmissionTimeout (c : CubicSender) (o : RTTOracle)
    (packetsRetransmitted : Bool) : CubicSender :=
  let c := { c with largestSentAtLastCutback := invalidPacketNumber }
  if ¬ packetsRetransmitted then c
  else
    let c := { c with hybridSlowStart := c.hybridSlowStart.restart }
    let c := { c with cubic := c.cubic.reset }
    let c := { c with slowStartThreshold := Int.tdiv c.congestionWindow 2 }
    let c := { c with congestionWindow := c.minCongestionWindow }
    c.applyMinRateProtection o

/-- Method `cubicSender.OnConnectionMigration` from cubic_sender.go. -/
def CubicSender.onConnectionMigration (c : CubicSender) : CubicSender :=
  { c with hybridSlowStart := c.hybridSlowStart.restart
           largestSentPacketNumber := invalidPacketNumber
           largestAckedPacketNumber := invalidPacketNumber
           largestSentAtLastCutback := invalidPacketNumber
           lastCutbackExitedSlowstart := false
           cubic := c.cubic.reset
           numAckedPackets := 0
           congestionWindow := c.initialCongestionWindow
           slowStartThreshold := c.initialMaxCongestionWindow }

/-- Method `cubicSender.MaybeExitSlowStart` from cubic_sender.go; the hybrid
slow-start predicate also takes its RTT sample (spec section 4.4). -/
def CubicSender.maybeExitSlowStart (c : CubicSender) (o : RTTOracle) : CubicSender :=
  if c.inSlowStart then
    let r := c.hybridSlowStart.shouldExitSlowStart o.latestRTT o.minRTT
      (Int.tdiv c.getCongestionWindow c.maxDatagramSize)
    let c := { c with hybridSlowStart := r.2 }
    if r.1 then
      let c := { c with slowStartThreshold := c.congestionWindow }
      c.maybeQlogStateChange .congestionAvoidance
    else c
  else c

/-- Method `cubicSender.SetMaxDatagramSize` from cubic_sender.go; `none`
models the Go panic on a shrinking datagram size. -/
def CubicSender.setMaxDatagramSize (c : CubicSender) (s : Int) :
    Option CubicSender :=
  if s < c.maxDatagramSize then none
  else
    let cwndIsMinCwnd := c.congestionWindow = c.minCongestionWindow
    let c := { c with maxDatagramSize := s }
    let c := if cwndIsMinCwnd then { c with congestionWindow := c.minCongestionWindow }
             else c
    some { c with pacer := c.pacer.setMaxDatagramSize s }

/-- One call of the CUBIC controller interface, with the oracle readings it
observes; `statsSent` models the surrounding stack adding sent bytes to the
shared connection counters, which it owns (spec section 5). -/
inductive CubicOp where
  | sent (o : RTTOracle) (sentTime pn : Int) (bytes : Nat) (retransmittable : Bool)
  | acked (o : RTTOracle) (pn : Int) (ackedBytes priorInFlight : Nat) (eventTime : Int)
  | loss (o : RTTOracle) (pn : Int) (lostBytes priorInFlight : Nat)
  | rto (o : RTTOracle) (retransmitted : Bool)
  | exitSS (o : RTTOracle)
  | migrate
  | setSize (s : Int)
  | statsSent (bytes : Nat)

/-- Dispatch of one interface call on the CUBIC state; `none` propagates the
`SetMaxDatagramSize` panic. -/
def cubicStep (c : CubicSender) : CubicOp → Option CubicSender
  | .sent o t pn bytes r => some (c.onPacketSent o t pn (bytes : Int) r)
  | .acked o pn ab pif t => some (c.onPacketAcked o pn (ab : Int) (pif : Int) t)
  | .loss o pn lost pif => some (c.onCongestionEvent o pn (lost : Int) (pif : Int))
  | .rto o r => some (c.onRetransmissionTimeout o r)
  | .exitSS o => some (c.maybeExitSlowStart o)
  | .migrate => some c.onConnectionMigration
  | .setSize s => c.setMaxDatagramSize s
  | .statsSent bytes =>
      some { c with connStats := { c.connStats with
        bytesSent := c.connStats.bytesSent + bytes } }

/-- A CUBIC sender after construction followed by an arbitrary sequence of
interface calls. -/
def cubicRun (stats : ConnectionStats) (reno : Bool) (d : Int) (hasQ : Bool)
    (ops : List CubicOp) : Option CubicSender :=
  ops.foldlM cubicStep (newCubicSender stats reno d hasQ)

/-! Helper lemmas and concrete fixtures. -/

theorem nat_mul_div_le_self (s a b : Nat) (hb : 0 < b) (h : a ≤ b) :
    s * a / b ≤ s := by
  have h1 : s * a / b ≤ s * b / b := Nat.div_le_div_right (Nat.mul_le_mul_left s h)
  rwa [Nat.mul_div_cancel s hb] at h1

theorem nat_self_le_mul_div (s a b : Nat) (hb : 0 < b) (h : b ≤ a) :
    s ≤ s * a / b := by
  have h1 : s * b / b ≤ s * a / b := Nat.div_le_div_right (Nat.mul_le_mul_left s h)
  rwa [Nat.mul_div_cancel s hb] at h1

theorem applyMinRateProtection_eq (c : CubicSender) (o : RTTOracle) :
    c.applyMinRateProtection o =
      { c with congestionWindow := max c.congestionWindow (max c.minCongestionWindow (minRateCwnd o.smoothedRTT)) } := by
  unfold CubicSender.applyMinRateProtection
  dsimp only
  split_ifs with h1 h2 h3
  · rw [max_eq_left (le_of_lt h1), max_eq_right (le_of_lt h2)]
  · rw [max_eq_left (le_of_lt h1), max_eq_left (le_of_not_lt h2)]
  · rw [max_eq_right (le_of_not_lt h1), max_eq_right (le_of_lt h3)]
  · rw [max_eq_right (le_of_not_lt h1), max_eq_left (le_of_not_lt h3)]

/-- C1: while a congestion event leaves the cumulative loss counters below the
10 % tolerance (computed after accounting the event's lost bytes), and the
lost packet is newer than the last cutback, `OnCongestionEvent` only performs
that accounting: every controller field — window, slow-start threshold,
cutback marker, ack counter, curve, pacer, hybrid slow-start, qlog state —
is unchanged, and of the connection counters only `bytesLost` and
`packetsLost` move, by the event itself. -/
theorem cubic_loss_below_tolerance_noop (c : CubicSender) (o : RTTOracle)
    (pn lostBytes priorInFlight : Int)
    (hpn : c.largestSentAtLastCutback < pn)
    (hsent : 0 < c.connStats.bytesSent)
    (htol : 10 * (c.connStats.bytesLost + lostBytes.toNat) < c.connStats.bytesSent) :
    c.onCongestionEvent o pn lostBytes priorInFlight =
      { c with connStats := { c.connStats with
          bytesLost := c.connStats.bytesLost + lostBytes.toNat
          packetsLost := c.connStats.packetsLost + 1 } } := by
  unfold CubicSender.onCongestionEvent
  dsimp only
  rw [if_neg (not_le_of_lt hpn), if_pos ⟨hsent, htol⟩]

/-- Concrete connection counters used by witnesses: a kilobyte sent, nothing
lost yet. -/
def witnessStats : ConnectionStats := ⟨1000, 0, 0⟩

/-- Concrete CUBIC-mode sender used by witnesses. -/
def witnessCubic : CubicSender := newCubicSender witnessStats false 1200 false

/-- Witness for C1: on `witnessCubic`, a 10-byte loss with a fresh packet
number keeps the loss share below 10 % and leaves everything but the loss
counters unchanged. -/
theorem cubic_loss_below_tolerance_noop_witness :
    witnessCubic.largestSentAtLastCutback < 5 ∧
      0 < witnessCubic.connStats.bytesSent ∧
      10 * (witnessCubic.connStats.bytesLost + (10 : Int).toNat) <
        witnessCubic.connStats.bytesSent ∧
      witnessCubic.onCongestionEvent ⟨0, 0, 0⟩ 5 10 0 =
        { witnessCubic with connStats := { witnessCubic.connStats with
            bytesLost := witnessCubic.connStats.bytesLost + (10 : Int).toNat
            packetsLost := witnessCubic.connStats.packetsLost + 1 } } :=
  ⟨by decide, by decide, by decide,
    cubic_loss_below_tolerance_noop witnessCubic ⟨0, 0, 0⟩ 5 10 0
      (by decide) (by decide) (by decide)⟩

/-- C5: `OnRetransmissionTimeout(true)` restarts hybrid slow-start, resets the
curve, halves the slow-start threshold, and sets the congestion window to the
maximum of `2 · maxDatagramSize` and the 5 Mbps BDP floor at the smoothed RTT
(100 ms fallback); in particular the window is at least that floor. -/
theorem cubic_rto_bdp_floor (c : CubicSender) (o : RTTOracle) :
    (c.onRetransmissionTimeout o true).hybridSlowStart = c.hybridSlowStart.restart
    ∧ (c.onRetransmissionTimeout o true).cubic = c.cubic.reset
    ∧ (c.onRetransmissionTimeout o true).slowStartThreshold
        = Int.tdiv c.congestionWindow 2
    ∧ (c.onRetransmissionTimeout o true).congestionWindow
        = max (2 * c.maxDatagramSize) (minRateCwnd o.smoothedRTT)
    ∧ minRateCwnd o.smoothedRTT ≤ (c.onRetransmissionTimeout o true).congestionWindow := by
  have hstep : c.onRetransmissionTimeout o true =
      ({ c with
          largestSentAtLastCutback := invalidPacketNumber
          hybridSlowStart := c.hybridSlowStart.restart
          cubic := c.cubic.reset
          slowStartThreshold := Int.tdiv c.congestionWindow 2
          congestionWindow := c.minCongestionWindow } : CubicSender).applyMinRateProtection o := by
    unfold CubicSender.onRetransmissionTimeout
    dsimp only
    rw [if_neg (by simp)]
    rfl
  rw [hstep, applyMinRateProtection_eq]
  refine ⟨rfl, rfl, rfl, ?_, ?_⟩
  · show max c.minCongestionWindow
      (max ({ c with
          largestSentAtLastCutback := invalidPacketNumber
          hybridSlowStart := c.hybridSlowStart.restart
          cubic := c.cubic.reset
          slowStartThreshold := Int.tdiv c.congestionWindow 2
          congestionWindow := c.minCongestionWindow } : CubicSender).minCongestionWindow
        (minRateCwnd o.smoothedRTT)) = _
    unfold CubicSender.minCongestionWindow minCongestionWindowPackets
    dsimp only
    rw [← max_assoc, max_self, Int.mul_comm]
  · exact le_trans (le_max_right _ _) (le_max_right _ _)

/-- C10: for `s` at least the current max datagram size, `SetMaxDatagramSize`
succeeds, rescales the congestion window to `2 · s` exactly when it equaled
the old minimum window `2 · maxDatagramSize`, and modifies no field besides
the datagram size and the pacer's datagram size. -/
theorem cubic_set_mds_frame (c : CubicSender) (s : Int)
    (h : c.maxDatagramSize ≤ s) :
    c.setMaxDatagramSize s = some { c with
      maxDatagramSize := s
      congestionWindow := if c.congestionWindow = 2 * c.maxDatagramSize then 2 * s else c.congestionWindow
      pacer := { c.pacer with maxDatagramSize := s } } := by
  unfold CubicSender.setMaxDatagramSize CubicSender.minCongestionWindow
    minCongestionWindowPackets Pacer.setMaxDatagramSize
  dsimp only
  rw [if_neg (not_lt.mpr h), Int.mul_comm 2 c.maxDatagramSize, Int.mul_comm 2 s]
  split_ifs with hc
  · rfl
  · rfl

/-- Witness for C10: growing the datagram size of the fresh sender from 1200
to 30000 leaves the 38400-byte window alone (it is not at the old minimum). -/
theorem cubic_set_mds_frame_witness :
    witnessCubic.maxDatagramSize ≤ 30000 ∧
      witnessCubic.setMaxDatagramSize 30000 = some { witnessCubic with
        maxDatagramSize := 30000
        congestionWindow := if witnessCubic.congestionWindow = 2 * witnessCubic.maxDatagramSize then 2 * 30000 else witnessCubic.congestionWindow
        pacer := { witnessCubic.pacer with maxDatagramSize := 30000 } } :=
  ⟨by decide, cubic_set_mds_frame witnessCubic 30000 (by decide)⟩

/-- C6: `SetMaxDatagramSize(s)` aborts exactly when `s` shrinks the datagram
size; with `s` equal to the current size (and the pacer in sync, as every
reachable state is) it is the identity; with larger `s` it stores `s` and
forwards it to the pacer. -/
theorem cubic_set_mds_contract (c : CubicSender) (s : Int) :
    (c.setMaxDatagramSize s = none ↔ s < c.maxDatagramSize)
    ∧ (s = c.maxDatagramSize → c.pacer.maxDatagramSize = c.maxDatagramSize →
        c.setMaxDatagramSize s = some c)
    ∧ (c.maxDatagramSize < s →
        ((c.setMaxDatagramSize s).getD c).maxDatagramSize = s ∧
        ((c.setMaxDatagramSize s).getD c).pacer.maxDatagramSize = s ∧
        (c.setMaxDatagramSize s).isSome = true) := by
  refine ⟨?_, ?_, ?_⟩
  · unfold CubicSender.setMaxDatagramSize
    dsimp only
    split_ifs with h
    · simp [h]
    · simp [h]
  · intro hs hsync
    subst hs
    obtain ⟨f1, f2, f3, pac, f5, f6, f7, f8, f9, cw, f11, f12, f13, f14, mds, f16, f17, f18⟩ := c
    obtain ⟨pb, pt, pm⟩ := pac
    unfold CubicSender.setMaxDatagramSize CubicSender.minCongestionWindow
      minCongestionWindowPackets Pacer.setMaxDatagramSize
    dsimp only at hsync ⊢
    subst hsync
    rw [if_neg (lt_irrefl _)]
    split_ifs with hc
    · simp [hc]
    · rfl
  · intro hlt
    unfold CubicSender.setMaxDatagramSize Pacer.setMaxDatagramSize
    dsimp only
    rw [if_neg (not_lt.mpr (le_of_lt hlt))]
    refine ⟨?_, ?_, rfl⟩
    · split_ifs <;> rfl
    · split_ifs <;> rfl

/-- Witness for C6: on the fresh sender, size 1200 is the identity, size 1300
is stored and forwarded, and size 1100 does not abort the iff. -/
theorem cubic_set_mds_contract_witness :
    witnessCubic.setMaxDatagramSize 1200 = some witnessCubic ∧
      ((witnessCubic.setMaxDatagramSize 1300).getD witnessCubic).maxDatagramSize = 1300 ∧
      ((witnessCubic.setMaxDatagramSize 1300).getD witnessCubic).pacer.maxDatagramSize = 1300 ∧
      (witnessCubic.setMaxDatagramSize 1100 = none ↔
        (1100 : Int) < witnessCubic.maxDatagramSize) :=
  ⟨(cubic_set_mds_contract witnessCubic 1200).2.1 (by decide) (by decide),
    ((cubic_set_mds_contract witnessCubic 1300).2.2 (by decide)).1,
    ((cubic_set_mds_contract witnessCubic 1300).2.2 (by decide)).2.1,
    (cubic_set_mds_contract witnessCubic 1100).1⟩

/-- C8: the Hysteria constructor sets `targetBps = mbps · 1 Mbps/8` with
`mbps` defaulted to 10 when non-positive, and sets the initial current and
stable rates to 100 Mbps/8 when `mbps > 100` and to `0.6 · targetBps` floored
at 1 Mbps/8 otherwise; in particular `mbps = 50` yields `0.6 · 50 Mbps/8`,
`mbps = 200` yields `100 Mbps/8`, and `mbps = 1` yields the 1 Mbps/8 floor. -/
theorem hysteria_init_values :
    (∀ (d : Nat) (mbps now : Int),
      (newHysteriaSender d mbps now).targetBps
          = (if mbps ≤ 0 then 10 else mbps).toNat * 1024 * 1024 / 8
        ∧ (newHysteriaSender d mbps now).currentBps
          = (if 100 < mbps then 100 * 1024 * 1024 / 8
             else max minStartBps ((newHysteriaSender d mbps now).targetBps * 3 / 5))
        ∧ (newHysteriaSender d mbps now).stableBps
          = (newHysteriaSender d mbps now).currentBps)
    ∧ (newHysteriaSender 1200 50 0).currentBps = 50 * 1024 * 1024 / 8 * 3 / 5
    ∧ (newHysteriaSender 1200 200 0).currentBps = 100 * 1024 * 1024 / 8
    ∧ (newHysteriaSender 1200 1 0).currentBps = minStartBps := by
  refine ⟨?_, by decide, by decide, by decide⟩
  intro d mbps now
  unfold newHysteriaSender
  dsimp only
  by_cases h0 : mbps ≤ 0
  · rw [if_pos h0, if_neg (by omega : ¬ 100 < mbps)]
    refine ⟨by decide, by decide, by decide⟩
  · rw [if_neg h0]
    by_cases hb : 100 < mbps
    · rw [if_pos (by omega : 100 < mbps.toNat), if_pos hb,
        if_neg (by decide : ¬ (100 * 1024 * 1024 / 8 : Nat) < minStartBps)]
      exact ⟨rfl, rfl, rfl⟩
    · rw [if_neg (by omega : ¬ 100 < mbps.toNat), if_neg hb]
      by_cases hlt : mbps.toNat * 1024 * 1024 / 8 * 3 / 5 < minStartBps
      · rw [if_pos hlt, max_eq_left (le_of_lt hlt)]
        exact ⟨rfl, rfl, rfl⟩
      · rw [if_neg hlt, max_eq_right (le_of_not_lt hlt)]
        exact ⟨rfl, rfl, rfl⟩

theorem maybeQlogStateChange_eq (c : CubicSender) (s : CongestionState) :
    c.maybeQlogStateChange s = { c with
      lastState := if c.hasQlogger then s else c.lastState
      qlogEvents := if c.hasQlogger ∧ ¬ s = c.lastState then s :: c.qlogEvents
                    else c.qlogEvents } := by
  obtain ⟨f1, f2, f3, f4, f5, f6, f7, f8, f9, f10, f11, f12, f13, f14, f15,
    lastS, hasQ, events⟩ := c
  unfold CubicSender.maybeQlogStateChange
  cases hasQ
  · simp
  · by_cases hs : s = lastS
    · subst hs
      simp
    · simp [hs]

/-- CUBIC sender reached by a retransmission timeout at a 1 ms smoothed RTT on
the fresh sender: its window is the 2400-byte minimum, at most three
datagrams. -/
def smallWindowCubic : CubicSender :=
  (newCubicSender ⟨0, 0, 0⟩ false 1200 false).onRetransmissionTimeout ⟨1000000, 0, 0⟩ true

/-- Counterexample to C9 as stated: `smallWindowCubic` is not in recovery and
has window 2400 = 2 datagrams, yet `OnPacketAcked` with `priorInFlight = 0`
grows the window to 3600 instead of declaring the sender
application-limited — with at most three datagrams of headroom the sender
counts as cwnd-limited even at zero in-flight bytes. -/
theorem cubic_ack_zero_inflight_counterexample :
    ¬ smallWindowCubic.inRecovery ∧
      smallWindowCubic.congestionWindow = 2400 ∧
      (smallWindowCubic.onPacketAcked ⟨1000000, 0, 0⟩ 1 1200 0 0).congestionWindow
        = 3600 ∧
      (smallWindowCubic.onPacketAcked ⟨1000000, 0, 0⟩ 1 1200 0 0).congestionWindow
        ≠ smallWindowCubic.congestionWindow := by
  refine ⟨by decide, by decide, by decide, by decide⟩

/-- C9 amended: when the sender is not in recovery (after the largest-acked
update) and the window strictly exceeds the three-datagram burst headroom
`3 · maxDatagramSize`, an `OnPacketAcked` with `priorInFlight = 0` declares
the connection application-limited — the curve's epoch is cleared and the
application-limited state is recorded when a recorder is attached — and the
congestion window is unchanged.  (As stated, the claim fails for windows
within the burst headroom: see the counterexample.) -/
theorem cubic_ack_zero_inflight_app_limited (c : CubicSender) (o : RTTOracle)
    (pn ackedBytes eventTime : Int)
    (hmds : 0 ≤ c.maxDatagramSize)
    (hrec : c.largestSentAtLastCutback < max pn c.largestAckedPacketNumber)
    (hcw : 3 * c.maxDatagramSize < c.congestionWindow) :
    (c.onPacketAcked o pn ackedBytes 0 eventTime).congestionWindow = c.congestionWindow
    ∧ (c.onPacketAcked o pn ackedBytes 0 eventTime).cubic.epoch = 0
    ∧ (c.onPacketAcked o pn ackedBytes 0 eventTime).lastState
        = (if c.hasQlogger then CongestionState.applicationLimited else c.lastState) := by
  unfold CubicSender.onPacketAcked
  dsimp only
  rw [if_neg (fun hin => absurd hin.2 (not_le_of_lt hrec))]
  unfold CubicSender.maybeIncreaseCwnd
  have hnl : ¬ ({ c with
      largestAckedPacketNumber := max pn c.largestAckedPacketNumber } :
        CubicSender).isCwndLimited 0 := by
    unfold CubicSender.isCwndLimited CubicSender.getCongestionWindow maxBurstPackets
    dsimp only
    push_neg
    have hdivnn : (0 : Int) ≤ Int.tdiv c.congestionWindow 2 :=
      Int.tdiv_nonneg (by omega) (by omega)
    exact ⟨by omega, fun _ => hdivnn, by omega⟩
  rw [if_pos hnl]
  rw [maybeQlogStateChange_eq]
  dsimp only
  split_ifs <;> exact ⟨rfl, rfl, rfl⟩

/-- Witness for the amended C9 at the fresh sender: 38400-byte window, far
above the 3600-byte headroom, not in recovery. -/
theorem cubic_ack_zero_inflight_app_limited_witness :
    0 ≤ witnessCubic.maxDatagramSize ∧
      witnessCubic.largestSentAtLastCutback < max 1 witnessCubic.largestAckedPacketNumber ∧
      3 * witnessCubic.maxDatagramSize < witnessCubic.congestionWindow ∧
      ((witnessCubic.onPacketAcked ⟨0, 0, 0⟩ 1 1200 0 0).congestionWindow
          = witnessCubic.congestionWindow
        ∧ (witnessCubic.onPacketAcked ⟨0, 0, 0⟩ 1 1200 0 0).cubic.epoch = 0
        ∧ (witnessCubic.onPacketAcked ⟨0, 0, 0⟩ 1 1200 0 0).lastState
            = (if witnessCubic.hasQlogger then CongestionState.applicationLimited
               else witnessCubic.lastState)) :=
  ⟨by decide, by decide, by decide,
    cubic_ack_zero_inflight_app_limited witnessCubic ⟨0, 0, 0⟩ 1 1200 0
      (by decide) (by decide) (by decide)⟩

theorem updateRTT_currentBps_facts (h : HysteriaSender) (sm lt : Nat)
    (hcur : minStartBps ≤ h.currentBps) :
    minStartBps ≤ (h.updateRTTAndCheckJitter sm lt).currentBps
    ∧ (h.updateRTTAndCheckJitter sm lt).targetBps = h.targetBps
    ∧ (h.updateRTTAndCheckJitter sm lt).rttCount = h.rttCount := by
  unfold HysteriaSender.updateRTTAndCheckJitter
  dsimp only
  split_ifs <;> refine ⟨?_, rfl, rfl⟩ <;> dsimp only <;> omega

/-- Hysteria sender built with `mbps = 1`, whose current and stable rates sit
exactly on the 1 Mbps/8 floor. -/
def hysteriaAtFloor : HysteriaSender := newHysteriaSender 1200 1 0

/-- Counterexample to C2 as stated: from the freshly built `mbps = 1` sender —
current and stable rates exactly at the 1 Mbps/8 floor — a single
above-threshold congestion event (one lost byte against zero prior in-flight)
sets `currentBps = ⌊0.75 · stableBps⌋ = 98304 < 131072`: the code applies no
floor on this path. -/
theorem hysteria_min_rate_counterexample :
    hysteriaAtFloor.currentBps = minStartBps ∧
      hysteriaAtFloor.stableBps = minStartBps ∧
      (hysteriaAtFloor.onCongestionEvent 0 0 1 0).currentBps = 98304 ∧
      (hysteriaAtFloor.onCongestionEvent 0 0 1 0).currentBps < minStartBps :=
  ⟨by decide, by decide, by decide, by decide⟩

/-- C2 amended: `currentBps ≥ 1 Mbps/8` holds at construction, is preserved by
every `OnPacketAcked` (on senders whose target is at least the floor, true of
every constructed sender), and is restored by `OnRetransmissionTimeout`; but
an `OnCongestionEvent` whose loss rate exceeds the RTT-tiered threshold sets
`currentBps = ⌊0.75 · stableBps⌋` with no floor, so the bound can break —
see the counterexample. -/
theorem hysteria_min_rate_floor :
    (∀ (d : Nat) (mbps now : Int),
      minStartBps ≤ (newHysteriaSender d mbps now).currentBps)
    ∧ (∀ (h : HysteriaSender) (sm lt : Nat) (pn : Int) (ab pif : Nat) (t : Int),
        minStartBps ≤ h.currentBps → minStartBps ≤ h.targetBps →
        minStartBps ≤ (h.onPacketAcked sm lt pn ab pif t).currentBps)
    ∧ (∀ (h : HysteriaSender) (b : Bool),
        (h.onRetransmissionTimeout b).currentBps = minStartBps)
    ∧ (∀ (h : HysteriaSender) (sm : Nat) (pn : Int) (lost pif : Nat),
        hysteriaLossAbove sm lost pif = true →
        (h.onCongestionEvent sm pn lost pif).currentBps = h.stableBps * 3 / 4) := by
  refine ⟨?_, ?_, ?_, ?_⟩
  · intro d mbps now
    unfold newHysteriaSender
    dsimp only
    split_ifs <;> omega
  · intro h sm lt pn ab pif t hcur htar
    obtain ⟨j1, j2, j3⟩ := updateRTT_currentBps_facts h sm lt hcur
    unfold HysteriaSender.onPacketAcked
    dsimp only
    have g1 : (h.updateRTTAndCheckJitter sm lt).currentBps ≤
        (h.updateRTTAndCheckJitter sm lt).currentBps * 5 / 4 :=
      nat_self_le_mul_div _ 5 4 (by norm_num) (by norm_num)
    have g2 : (h.updateRTTAndCheckJitter sm lt).currentBps ≤
        (h.updateRTTAndCheckJitter sm lt).currentBps * 11 / 10 :=
      nat_self_le_mul_div _ 11 10 (by norm_num) (by norm_num)
    split_ifs <;> dsimp only <;> omega
  · intro h b
    rfl
  · intro h sm pn lost pif habove
    unfold HysteriaSender.onCongestionEvent
    rw [if_pos habove]

/-- Witness for the amended C2 on the `mbps = 50` sender: the ack preserves
the floor and an above-threshold loss computes `⌊0.75 · stableBps⌋`. -/
theorem hysteria_min_rate_floor_witness :
    (minStartBps ≤ (newHysteriaSender 1200 50 0).currentBps
      ∧ minStartBps ≤ (newHysteriaSender 1200 50 0).targetBps
      ∧ minStartBps ≤ ((newHysteriaSender 1200 50 0).onPacketAcked 0 0 1 1200 0 0).currentBps)
    ∧ (hysteriaLossAbove 0 1 0 = true
      ∧ ((newHysteriaSender 1200 50 0).onCongestionEvent 0 0 1 0).currentBps
          = (newHysteriaSender 1200 50 0).stableBps * 3 / 4) :=
  ⟨⟨by decide, by decide,
      hysteria_min_rate_floor.2.1 _ 0 0 1 1200 0 0 (by decide) (by decide)⟩,
    ⟨by decide, hysteria_min_rate_floor.2.2.2 _ 0 0 1 0 (by decide)⟩⟩

/-- Reachability invariant of the Hysteria sender: the current and stable
rates never exceed the target, and the target is at least the 1 Mbps/8
floor. -/
def HysteriaInv (h : HysteriaSender) : Prop :=
  h.currentBps ≤ h.targetBps ∧ h.stableBps ≤ h.targetBps ∧ minStartBps ≤ h.targetBps

theorem hysteriaInv_new (d : Nat) (mbps now : Int) :
    HysteriaInv (newHysteriaSender d mbps now) := by
  have hms : minStartBps = 131072 := rfl
  unfold HysteriaInv newHysteriaSender
  dsimp only
  refine ⟨?_, ?_, ?_⟩ <;> split_ifs <;> omega

theorem updateRTT_frame (h : HysteriaSender) (sm lt : Nat) :
    (h.updateRTTAndCheckJitter sm lt).rttCount = h.rttCount
    ∧ (h.updateRTTAndCheckJitter sm lt).targetBps = h.targetBps
    ∧ (h.updateRTTAndCheckJitter sm lt).stableBps = h.stableBps
    ∧ (h.updateRTTAndCheckJitter sm lt).maxDatagram = h.maxDatagram := by
  unfold HysteriaSender.updateRTTAndCheckJitter
  dsimp only
  split_ifs <;> exact ⟨rfl, rfl, rfl, rfl⟩

theorem updateRTT_currentBps_le (h : HysteriaSender) (sm lt : Nat) :
    (h.updateRTTAndCheckJitter sm lt).currentBps ≤ max h.currentBps minStartBps := by
  have hle : h.currentBps * 17 / 20 ≤ h.currentBps :=
    nat_mul_div_le_self _ 17 20 (by norm_num) (by norm_num)
  unfold HysteriaSender.updateRTTAndCheckJitter
  dsimp only
  split_ifs <;> (try dsimp only) <;> omega

theorem hysteriaInv_step (h : HysteriaSender) (op : HysteriaOp)
    (hI : HysteriaInv h) : HysteriaInv (hysteriaStep h op) := by
  obtain ⟨h1, h2, h3⟩ := hI
  cases op with
  | sent lt now bytes =>
      unfold hysteriaStep HysteriaSender.onPacketSent
      dsimp only
      split_ifs <;> exact ⟨h1, h2, h3⟩
  | acked sm lt pn ab pif t =>
      unfold hysteriaStep HysteriaSender.onPacketAcked
      dsimp only
      obtain ⟨j1, j2, j3, _⟩ := updateRTT_frame h sm lt
      have jc := updateRTT_currentBps_le h sm lt
      have g1 : (h.updateRTTAndCheckJitter sm lt).currentBps ≤
          (h.updateRTTAndCheckJitter sm lt).currentBps * 5 / 4 :=
        nat_self_le_mul_div _ 5 4 (by norm_num) (by norm_num)
      have g2 : (h.updateRTTAndCheckJitter sm lt).currentBps ≤
          (h.updateRTTAndCheckJitter sm lt).currentBps * 11 / 10 :=
        nat_self_le_mul_div _ 11 10 (by norm_num) (by norm_num)
      unfold HysteriaInv
      split_ifs <;> dsimp only <;> omega
  | loss sm pn lost pif =>
      unfold hysteriaStep HysteriaSender.onCongestionEvent
      dsimp only
      have hcut : h.stableBps * 3 / 4 ≤ h.stableBps :=
        nat_mul_div_le_self _ 3 4 (by norm_num) (by norm_num)
      unfold HysteriaInv
      split_ifs <;> dsimp only <;> omega
  | rto b =>
      exact ⟨h3, h2, h3⟩
  | setSize s =>
      exact ⟨h1, h2, h3⟩

theorem hysteriaInv_run (d : Nat) (mbps now : Int) (ops : List HysteriaOp) :
    HysteriaInv (hysteriaRun d mbps now ops) := by
  have key : ∀ (l : List HysteriaOp) (h : HysteriaSender), HysteriaInv h →
      HysteriaInv (l.foldl hysteriaStep h) := by
    intro l
    induction l with
    | nil => exact fun h hI => hI
    | cons a l ih => exact fun h hI => ih _ (hysteriaInv_step h a hI)
  exact key ops _ (hysteriaInv_new d mbps now)

theorem updateRTT_noJitter (h : HysteriaSender) (sm lt : Nat)
    (hnj : lt = 0 ∨ ¬ (20 * 1000000 < sm ∧ 2 * sm < lt)) :
    (h.updateRTTAndCheckJitter sm lt).currentBps = h.currentBps := by
  rcases hnj with hz | hn
  · unfold HysteriaSender.updateRTTAndCheckJitter
    rw [if_pos hz]
  · unfold HysteriaSender.updateRTTAndCheckJitter
    dsimp only
    split_ifs <;> rfl

/-- C7: along every sequence of calls after construction, `currentBps` never
exceeds `targetBps`; each `OnPacketAcked` bumps `rttCount`, resetting it to 0
exactly when it reaches 4, at which point — when the jitter check does not
fire — a current rate below target is multiplied by 1.25 (smoothed RTT above
150 ms) or 1.1 and clamped to the target, and before the fourth tick the rate
is untouched. -/
theorem hysteria_rate_clamped_growth :
    (∀ (d : Nat) (mbps now : Int) (ops : List HysteriaOp),
      (hysteriaRun d mbps now ops).currentBps ≤ (hysteriaRun d mbps now ops).targetBps)
    ∧ (∀ (h : HysteriaSender) (sm lt : Nat) (pn : Int) (ab pif : Nat) (t : Int),
        (h.onPacketAcked sm lt pn ab pif t).rttCount
          = if 4 ≤ h.rttCount + 1 then 0 else h.rttCount + 1)
    ∧ (∀ (h : HysteriaSender) (sm lt : Nat) (pn : Int) (ab pif : Nat) (t : Int),
        (lt = 0 ∨ ¬ (20 * 1000000 < sm ∧ 2 * sm < lt)) →
        4 ≤ h.rttCount + 1 → h.currentBps < h.targetBps →
        (h.onPacketAcked sm lt pn ab pif t).currentBps
          = min h.targetBps
              (if 150 * 1000000 < sm then h.currentBps * 5 / 4
               else h.currentBps * 11 / 10))
    ∧ (∀ (h : HysteriaSender) (sm lt : Nat) (pn : Int) (ab pif : Nat) (t : Int),
        (lt = 0 ∨ ¬ (20 * 1000000 < sm ∧ 2 * sm < lt)) →
        ¬ 4 ≤ h.rttCount + 1 →
        (h.onPacketAcked sm lt pn ab pif t).currentBps = h.currentBps) := by
  refine ⟨?_, ?_, ?_, ?_⟩
  · exact fun d mbps now ops => (hysteriaInv_run d mbps now ops).1
  · intro h sm lt pn ab pif t
    obtain ⟨j1, j2, j3, _⟩ := updateRTT_frame h sm lt
    unfold HysteriaSender.onPacketAcked
    dsimp only
    rw [j1]
    split_ifs <;> rfl
  · intro h sm lt pn ab pif t hnj hc4 hlt
    obtain ⟨j1, j2, j3, _⟩ := updateRTT_frame h sm lt
    have jc := updateRTT_noJitter h sm lt hnj
    unfold HysteriaSender.onPacketAcked
    dsimp only
    rw [j1, if_pos hc4]
    rw [jc, j2, if_pos hlt]
    by_cases hx : h.targetBps < (if 150 * 1000000 < sm then h.currentBps * 5 / 4
        else h.currentBps * 11 / 10)
    · rw [if_pos hx, min_eq_left (le_of_lt hx)]
    · rw [if_neg hx, min_eq_right (le_of_not_lt hx)]
  · intro h sm lt pn ab pif t hnj hc4
    obtain ⟨j1, j2, j3, _⟩ := updateRTT_frame h sm lt
    have jc := updateRTT_noJitter h sm lt hnj
    unfold HysteriaSender.onPacketAcked
    dsimp only
    rw [j1, if_neg hc4]
    exact jc

/-- Hysteria sender three acks into a growth cycle, used by the C7 witness. -/
def hysteriaNearTick : HysteriaSender := { newHysteriaSender 1200 50 0 with rttCount := 3 }

/-- Witness for C7: on the fourth tick with no jitter trigger, the rate below
target is multiplied by 1.1 (smoothed RTT of zero) and clamped. -/
theorem hysteria_rate_clamped_growth_witness :
    ((0 : Nat) = 0 ∨ ¬ ((20 * 1000000 : Nat) < 0 ∧ 2 * 0 < 0)) ∧
      (4 : Int) ≤ hysteriaNearTick.rttCount + 1 ∧
      hysteriaNearTick.currentBps < hysteriaNearTick.targetBps ∧
      (hysteriaNearTick.onPacketAcked 0 0 1 1200 0 0).currentBps
        = min hysteriaNearTick.targetBps
            (if (150 * 1000000 : Nat) < 0 then hysteriaNearTick.currentBps * 5 / 4
             else hysteriaNearTick.currentBps * 11 / 10) :=
  ⟨Or.inl rfl, by decide, by decide,
    hysteria_rate_clamped_growth.2.2.1 hysteriaNearTick 0 0 1 1200 0 0
      (Or.inl rfl) (by decide) (by decide)⟩

theorem dvd_lt_add_le {d cw m : Int} (hd : 0 < d) (h1 : d ∣ cw) (h2 : d ∣ m)
    (h : cw < m) : cw + d ≤ m := by
  obtain ⟨k, rfl⟩ := h1
  obtain ⟨j, rfl⟩ := h2
  have hkj : k < j := lt_of_mul_lt_mul_left h (le_of_lt hd)
  nlinarith [hd, hkj]

theorem maybeQlog_congestionWindow (c : CubicSender) (s : CongestionState) :
    (c.maybeQlogStateChange s).congestionWindow = c.congestionWindow := by
  rw [maybeQlogStateChange_eq]

theorem maybeQlog_maxDatagramSize (c : CubicSender) (s : CongestionState) :
    (c.maybeQlogStateChange s).maxDatagramSize = c.maxDatagramSize := by
  rw [maybeQlogStateChange_eq]

theorem maybeQlog_cubic (c : CubicSender) (s : CongestionState) :
    (c.maybeQlogStateChange s).cubic = c.cubic := by
  rw [maybeQlogStateChange_eq]

theorem maybeQlog_maxCongestionWindow (c : CubicSender) (s : CongestionState) :
    (c.maybeQlogStateChange s).maxCongestionWindow = c.maxCongestionWindow := by
  unfold CubicSender.maxCongestionWindow
  rw [maybeQlog_maxDatagramSize]

theorem maybeIncreaseCwnd_cap (c : CubicSender) (o : RTTOracle) (ab pif t : Int)
    (hd : 0 < c.maxDatagramSize) (hdvd : c.maxDatagramSize ∣ c.congestionWindow)
    (hcap : c.congestionWindow ≤ c.maxCongestionWindow) :
    (c.maybeIncreaseCwnd o ab pif t).congestionWindow ≤ c.maxCongestionWindow := by
  have hm : c.maxDatagramSize ∣ c.maxCongestionWindow := by
    unfold CubicSender.maxCongestionWindow
    exact dvd_mul_right _ _
  unfold CubicSender.maybeIncreaseCwnd
  dsimp only
  split_ifs with h1 h2 h3 h4 h5
  all_goals try simp only [maybeQlog_congestionWindow, maybeQlog_maxDatagramSize,
    maybeQlog_maxCongestionWindow]
  · exact hcap
  · exact dvd_lt_add_le hd hdvd hm (lt_of_not_le h2)
  · exact dvd_lt_add_le hd hdvd hm (lt_of_not_le h2)
  · exact hcap
  · exact min_le_left _ _
  · exact hcap

/-- Operation trace driving the C3 counterexample: account 1200 sent bytes,
send packet 0, then lose it with the oracle reporting a 20 s smoothed RTT. -/
def capBreakOps : List CubicOp :=
  [CubicOp.statsSent 1200,
   CubicOp.sent ⟨20000000000, 0, 0⟩ 0 0 1200 true,
   CubicOp.loss ⟨20000000000, 0, 0⟩ 0 1200 38400]

/-- Counterexample to C3 as stated: on a Reno-mode sender with 1200-byte
datagrams, a single above-tolerance loss at a 20 s smoothed RTT lets
`applyMinRateProtection` raise the window to the 5 Mbps BDP floor 13107200,
beyond the cap `maxDatagramSize · MaxCongestionWindowPackets` = 12000000. -/
theorem cubic_max_window_counterexample :
    (cubicRun ⟨0, 0, 0⟩ true 1200 false capBreakOps).isSome = true ∧
      ((cubicRun ⟨0, 0, 0⟩ true 1200 false capBreakOps).getD witnessCubic).congestionWindow
        = 13107200 ∧
      ((cubicRun ⟨0, 0, 0⟩ true 1200 false capBreakOps).getD witnessCubic).maxCongestionWindow
        = 12000000 ∧
      ¬ ((cubicRun ⟨0, 0, 0⟩ true 1200 false capBreakOps).getD
            witnessCubic).congestionWindow
          ≤ ((cubicRun ⟨0, 0, 0⟩ true 1200 false capBreakOps).getD
            witnessCubic).maxCongestionWindow :=
  ⟨by decide, by decide, by decide, by decide⟩

/-- C3 amended: ack-driven growth respects the cap — on a sender whose window
is a multiple of the datagram size (as holds whenever the datagram size has
never been raised) and within the cap, `OnPacketAcked` keeps the window at or
below `maxDatagramSize · MaxCongestionWindowPackets`, the slow-start and Reno
single-datagram increments included, and the CUBIC branch clamps to the cap;
but `applyMinRateProtection` raises the window to exactly
`max window (max minCongestionWindow bdpFloor)`, which exceeds the cap
whenever the 5 Mbps BDP floor does — see the counterexample. -/
theorem cubic_max_window_cap :
    (∀ (c : CubicSender) (o : RTTOracle) (pn ab pif t : Int),
      0 < c.maxDatagramSize → c.maxDatagramSize ∣ c.congestionWindow →
      c.congestionWindow ≤ c.maxCongestionWindow →
      (c.onPacketAcked o pn ab pif t).congestionWindow ≤ c.maxCongestionWindow)
    ∧ (∀ (c : CubicSender) (o : RTTOracle),
      (c.applyMinRateProtection o).congestionWindow
        = max c.congestionWindow (max c.minCongestionWindow (minRateCwnd o.smoothedRTT))) := by
  constructor
  · intro c o pn ab pif t hd hdvd hcap
    have hcap2 := maybeIncreaseCwnd_cap
      { c with largestAckedPacketNumber := max pn c.largestAckedPacketNumber }
      o ab pif t hd hdvd hcap
    unfold CubicSender.onPacketAcked
    dsimp only
    split_ifs with h1 h2
    · exact hcap
    · exact hcap2
    · exact hcap2
  · intro c o
    rw [applyMinRateProtection_eq]

/-- Witness for the amended C3: the fresh sender's 38400-byte window is a
multiple of 1200 and under the 12000000-byte cap, and stays under it through
an ack. -/
theorem cubic_max_window_cap_witness :
    0 < witnessCubic.maxDatagramSize ∧
      witnessCubic.maxDatagramSize ∣ witnessCubic.congestionWindow ∧
      witnessCubic.congestionWindow ≤ witnessCubic.maxCongestionWindow ∧
      (witnessCubic.onPacketAcked ⟨0, 0, 0⟩ 1 1200 38400 0).congestionWindow
        ≤ witnessCubic.maxCongestionWindow :=
  ⟨by decide, by decide, by decide,
    cubic_max_window_cap.1 witnessCubic ⟨0, 0, 0⟩ 1 1200 38400 0
      (by decide) (by decide) (by decide)⟩

theorem cubicCurveAfterAck_bounds (cub : CubicCurve) (ab cw dm t d0 : Int)
    (hab : 0 ≤ ab) (hacc : 0 ≤ cub.ackedBytesCount) (hd0 : 0 < d0)
    (hcw : 2 * d0 ≤ cw)
    (hest : cub.epoch ≠ 0 → 2 * d0 ≤ cub.estimatedTCPcongestionWindow) :
    0 ≤ (cub.congestionWindowAfterAck ab cw dm t).1.ackedBytesCount
    ∧ 2 * d0 ≤ (cub.congestionWindowAfterAck ab cw dm t).1.estimatedTCPcongestionWindow
    ∧ 2 * d0 ≤ (cub.congestionWindowAfterAck ab cw dm t).2 := by
  have hcmds : (0 : Int) ≤ cubicMaxDatagramSize := by decide
  unfold CubicCurve.congestionWindowAfterAck
  dsimp only
  by_cases hep : cub.epoch = 0
  · rw [if_pos hep]
    have hinc : 0 ≤ Int.tdiv (ab * 9 * cubicMaxDatagramSize) (17 * cw) :=
      Int.tdiv_nonneg (mul_nonneg (mul_nonneg hab (by norm_num)) hcmds) (by omega)
    by_cases hlm : cub.lastMaxCongestionWindow ≤ cw
    · rw [if_pos hlm]
      split_ifs <;> (try dsimp only at *) <;> omega
    · rw [if_neg hlm]
      split_ifs <;> (try dsimp only at *) <;> omega
  · rw [if_neg hep]
    have hest2 := hest hep
    have hinc : 0 ≤ Int.tdiv ((cub.ackedBytesCount + ab) * 9 * cubicMaxDatagramSize)
        (17 * cub.estimatedTCPcongestionWindow) :=
      Int.tdiv_nonneg (mul_nonneg (mul_nonneg (by omega) (by norm_num)) hcmds) (by omega)
    split_ifs <;> (try dsimp only at *) <;> omega

/-- Reachability invariant of the CUBIC sender in runs whose datagram size
stays at `d0`: the window holds two datagrams, the stored initial window is 32
datagrams, and the curve's accumulator and Reno-equivalent window are sane. -/
def CubicInv (d0 : Int) (c : CubicSender) : Prop :=
  c.maxDatagramSize = d0
  ∧ 2 * d0 ≤ c.congestionWindow
  ∧ c.initialCongestionWindow = 32 * d0
  ∧ 0 ≤ c.cubic.ackedBytesCount
  ∧ (c.cubic.epoch ≠ 0 → 2 * d0 ≤ c.cubic.estimatedTCPcongestionWindow)

theorem cubicInv_new (d0 : Int) (hd0 : 0 < d0) (stats : ConnectionStats)
    (reno hasQ : Bool) : CubicInv d0 (newCubicSender stats reno d0 hasQ) := by
  unfold CubicInv newCubicSender newCubicSenderFull newCubic CubicCurve.reset
  dsimp only
  exact ⟨rfl, by omega, rfl, le_refl 0, fun h => absurd rfl h⟩

theorem cubicInv_maybeIncrease (d0 : Int) (hd0 : 0 < d0) (c : CubicSender)
    (hI : CubicInv d0 c) (o : RTTOracle) (ab pif t : Int) (hab : 0 ≤ ab) :
    CubicInv d0 (c.maybeIncreaseCwnd o ab pif t) := by
  obtain ⟨h1, h2, h3, h4, h5⟩ := hI
  unfold CubicSender.maybeIncreaseCwnd
  dsimp only
  split_ifs with g1 g2 g3 g4 g5
  all_goals try simp only [maybeQlogStateChange_eq]
  all_goals try unfold CubicCurve.onApplicationLimited
  all_goals unfold CubicInv
  all_goals try dsimp only
  all_goals try exact ⟨h1, h2, h3, h4, h5⟩
  all_goals try exact ⟨h1, h2, h3, h4, fun h => absurd rfl h⟩
  all_goals try exact ⟨h1, by omega, h3, h4, h5⟩
  all_goals
    have hb := cubicCurveAfterAck_bounds c.cubic ab c.congestionWindow
      (o.minRTT : Int) t d0 hab h4 hd0 h2 h5
    refine ⟨h1, ?_, h3, hb.1, fun _ => hb.2.1⟩
    refine le_min ?_ hb.2.2
    unfold CubicSender.maxCongestionWindow maxCongestionWindowPackets
    dsimp only
    omega

/-- Side condition on one interface call for the fixed-size invariant: the new
datagram size of a `setSize` call may not exceed the initial one. -/
def cubicOpOK (d0 : Int) : CubicOp → Prop
  | .setSize s => s ≤ d0
  | _ => True

theorem cubicInv_step (d0 : Int) (hd0 : 0 < d0) (c : CubicSender) (op : CubicOp)
    (hI : CubicInv d0 c) (hop : cubicOpOK d0 op) :
    ∀ c2, cubicStep c op = some c2 → CubicInv d0 c2 := by
  obtain ⟨h1, h2, h3, h4, h5⟩ := hI
  intro c2 hstep
  cases op with
  | sent o st pn bytes r =>
      injection hstep with hstep
      subst hstep
      unfold CubicSender.onPacketSent
      dsimp only
      unfold CubicInv
      split_ifs <;> exact ⟨h1, h2, h3, h4, h5⟩
  | acked o pn ab pif t =>
      injection hstep with hstep
      subst hstep
      have hIm := cubicInv_maybeIncrease d0 hd0
        { c with largestAckedPacketNumber := max pn c.largestAckedPacketNumber }
        ⟨h1, h2, h3, h4, h5⟩ o (ab : Int) (pif : Int) t (Int.natCast_nonneg ab)
      obtain ⟨m1, m2, m3, m4, m5⟩ := hIm
      unfold CubicSender.onPacketAcked
      dsimp only
      unfold CubicInv
      split_ifs with g1 g2
      · exact ⟨h1, h2, h3, h4, h5⟩
      · exact ⟨m1, m2, m3, m4, m5⟩
      · exact ⟨m1, m2, m3, m4, m5⟩
  | loss o pn lost pif =>
      injection hstep with hstep
      subst hstep
      unfold CubicSender.onCongestionEvent CubicCurve.congestionWindowAfterPacketLoss
      simp only [applyMinRateProtection_eq, maybeQlogStateChange_eq]
      unfold CubicSender.minCongestionWindow minCongestionWindowPackets
      unfold CubicInv
      split_ifs <;> (try dsimp only) <;>
        refine ⟨h1, by omega, h3, h4, ?_⟩ <;>
        first
          | exact h5
          | exact fun h => absurd rfl h
  | rto o r =>
      injection hstep with hstep
      subst hstep
      unfold CubicSender.onRetransmissionTimeout CubicCurve.reset
        HybridSlowStart.restart
      simp only [applyMinRateProtection_eq]
      unfold CubicSender.minCongestionWindow minCongestionWindowPackets
      unfold CubicInv
      split_ifs <;> (try dsimp only) <;>
        first
          | exact ⟨h1, h2, h3, h4, h5⟩
          | exact ⟨h1, by omega, h3, le_refl 0, fun h => absurd rfl h⟩
  | exitSS o =>
      injection hstep with hstep
      subst hstep
      unfold CubicSender.maybeExitSlowStart
      simp only [maybeQlogStateChange_eq]
      unfold CubicInv
      split_ifs <;> exact ⟨h1, h2, h3, h4, h5⟩
  | migrate =>
      injection hstep with hstep
      subst hstep
      unfold CubicSender.onConnectionMigration CubicCurve.reset
        HybridSlowStart.restart
      unfold CubicInv
      dsimp only
      exact ⟨h1, by omega, h3, le_refl 0, fun h => absurd rfl h⟩
  | setSize s =>
      have hs : s ≤ d0 := hop
      unfold cubicStep CubicSender.setMaxDatagramSize at hstep
      dsimp only at hstep
      by_cases hlt : s < c.maxDatagramSize
      · rw [if_pos hlt] at hstep
        exact absurd hstep (by simp)
      · rw [if_neg hlt] at hstep
        injection hstep with hstep
        subst hstep
        unfold CubicSender.minCongestionWindow minCongestionWindowPackets
        unfold CubicInv
        split_ifs <;> (try dsimp only) <;> exact ⟨by omega, by omega, h3, h4, h5⟩
  | statsSent bytes =>
      injection hstep with hstep
      subst hstep
      exact ⟨h1, h2, h3, h4, h5⟩

theorem cubicRun_inv (d0 : Int) (hd0 : 0 < d0) (stats : ConnectionStats)
    (reno hasQ : Bool) (ops : List CubicOp)
    (hops : ∀ s, CubicOp.setSize s ∈ ops → s ≤ d0) (c2 : CubicSender)
    (hrun : cubicRun stats reno d0 hasQ ops = some c2) : CubicInv d0 c2 := by
  have key : ∀ (l : List CubicOp) (c : CubicSender), CubicInv d0 c →
      (∀ s, CubicOp.setSize s ∈ l → s ≤ d0) →
      ∀ cf, l.foldlM cubicStep c = some cf → CubicInv d0 cf := by
    intro l
    induction l with
    | nil =>
        intro c hI _ cf h
        simp only [List.foldlM_nil] at h
        injection h with h
        subst h
        exact hI
    | cons a l ih =>
        intro c hI hmem cf h
        rw [List.foldlM_cons] at h
        obtain ⟨b, hb, hrest⟩ := Option.bind_eq_some.mp h
        have hok : cubicOpOK d0 a := by
          cases a <;> try trivial
          exact hmem _ (List.mem_cons_self _ _)
        have hIb := cubicInv_step d0 hd0 c a hI hok b hb
        exact ih b hIb (fun s hsm => hmem s (List.mem_cons_of_mem _ hsm)) cf hrest
  exact key ops _ (cubicInv_new d0 hd0 stats reno hasQ) hops c2 hrun

/-- Counterexample to C4 as stated: one increasing `SetMaxDatagramSize(30000)`
on the fresh 1200-byte sender succeeds, but since the 38400-byte window was
not at the old minimum it is not rescaled, leaving it below the new
`2 · maxDatagramSize = 60000`. -/
theorem cubic_min_window_counterexample :
    (cubicRun ⟨0, 0, 0⟩ false 1200 false [CubicOp.setSize 30000]).isSome = true ∧
      ((cubicRun ⟨0, 0, 0⟩ false 1200 false [CubicOp.setSize 30000]).getD
          witnessCubic).congestionWindow = 38400 ∧
      ((cubicRun ⟨0, 0, 0⟩ false 1200 false [CubicOp.setSize 30000]).getD
          witnessCubic).maxDatagramSize = 30000 ∧
      ¬ 2 * ((cubicRun ⟨0, 0, 0⟩ false 1200 false [CubicOp.setSize 30000]).getD
            witnessCubic).maxDatagramSize
          ≤ ((cubicRun ⟨0, 0, 0⟩ false 1200 false [CubicOp.setSize 30000]).getD
            witnessCubic).getCongestionWindow :=
  ⟨by decide, by decide, by decide, by decide⟩

/-- C4 amended: along every run from construction in which the datagram size
is never raised (every `SetMaxDatagramSize` argument is at most the initial
size — such calls then either panic or keep the current size),
`GetCongestionWindow() ≥ 2 · maxDatagramSize` holds at all times; an
increasing `SetMaxDatagramSize` (or a migration after one) can break the
bound, because the window is only rescaled when it sat exactly at the old
minimum — see the counterexample. -/
theorem cubic_min_window_invariant (d0 : Int) (stats : ConnectionStats)
    (reno hasQ : Bool) (ops : List CubicOp) (c2 : CubicSender)
    (hd0 : 0 < d0) (hops : ∀ s, CubicOp.setSize s ∈ ops → s ≤ d0)
    (hrun : cubicRun stats reno d0 hasQ ops = some c2) :
    2 * c2.maxDatagramSize ≤ c2.getCongestionWindow := by
  obtain ⟨h1, h2, h3, h4, h5⟩ := cubicRun_inv d0 hd0 stats reno hasQ ops hops c2 hrun
  unfold CubicSender.getCongestionWindow
  omega

/-- Witness for the amended C4: a run of one ack on the fresh sender keeps the
window at or above two datagrams. -/
theorem cubic_min_window_invariant_witness :
    (0 : Int) < 1200 ∧
      (∀ s, CubicOp.setSize s ∈ ([CubicOp.acked ⟨0, 0, 0⟩ 1 1200 38400 0] : List CubicOp)
        → s ≤ 1200) ∧
      cubicRun witnessStats false 1200 false [CubicOp.acked ⟨0, 0, 0⟩ 1 1200 38400 0]
        = some (witnessCubic.onPacketAcked ⟨0, 0, 0⟩ 1 1200 38400 0) ∧
      2 * (witnessCubic.onPacketAcked ⟨0, 0, 0⟩ 1 1200 38400 0).maxDatagramSize
        ≤ (witnessCubic.onPacketAcked ⟨0, 0, 0⟩ 1 1200 38400 0).getCongestionWindow :=
  ⟨by decide, by intro s hs; simp at hs, by decide,
    cubic_min_window_invariant 1200 witnessStats false false
      [CubicOp.acked ⟨0, 0, 0⟩ 1 1200 38400 0]
      (witnessCubic.onPacketAcked ⟨0, 0, 0⟩ 1 1200 38400 0)
      (by decide) (by intro s hs; simp at hs) (by decide)⟩
